import Mathlib

/-!
Shallow embedding of the `NBSDataPipeline` class (nbs_pipeline.py): JSON-like
values, the entry validator, the incremental directory processor and the
dataset writer, together with theorems settling the specification claims.
-/

/-- JSON-like Python values as they occur at the validator boundary. -/
inductive Value where
  | none : Value
  | bool : Bool → Value
  | int : Int → Value
  | str : String → Value
  | list : List Value → Value
deriving Repr

mutual
/-- Decidable equality on values (the derive handler does not cover nested inductives). -/
def Value.decEq : (a b : Value) → Decidable (a = b)
  | .none, .none => isTrue rfl
  | .none, .bool _ => isFalse (fun h => Value.noConfusion h)
  | .none, .int _ => isFalse (fun h => Value.noConfusion h)
  | .none, .str _ => isFalse (fun h => Value.noConfusion h)
  | .none, .list _ => isFalse (fun h => Value.noConfusion h)
  | .bool _, .none => isFalse (fun h => Value.noConfusion h)
  | .bool a, .bool b =>
    match Bool.decEq a b with
    | isTrue h => isTrue (h ▸ rfl)
    | isFalse h => isFalse (fun c => h (Value.bool.inj c))
  | .bool _, .int _ => isFalse (fun h => Value.noConfusion h)
  | .bool _, .str _ => isFalse (fun h => Value.noConfusion h)
  | .bool _, .list _ => isFalse (fun h => Value.noConfusion h)
  | .int _, .none => isFalse (fun h => Value.noConfusion h)
  | .int _, .bool _ => isFalse (fun h => Value.noConfusion h)
  | .int a, .int b =>
    match Int.decEq a b with
    | isTrue h => isTrue (h ▸ rfl)
    | isFalse h => isFalse (fun c => h (Value.int.inj c))
  | .int _, .str _ => isFalse (fun h => Value.noConfusion h)
  | .int _, .list _ => isFalse (fun h => Value.noConfusion h)
  | .str _, .none => isFalse (fun h => Value.noConfusion h)
  | .str _, .bool _ => isFalse (fun h => Value.noConfusion h)
  | .str _, .int _ => isFalse (fun h => Value.noConfusion h)
  | .str a, .str b =>
    match String.decEq a b with
    | isTrue h => isTrue (h ▸ rfl)
    | isFalse h => isFalse (fun c => h (Value.str.inj c))
  | .str _, .list _ => isFalse (fun h => Value.noConfusion h)
  | .list _, .none => isFalse (fun h => Value.noConfusion h)
  | .list _, .bool _ => isFalse (fun h => Value.noConfusion h)
  | .list _, .int _ => isFalse (fun h => Value.noConfusion h)
  | .list _, .str _ => isFalse (fun h => Value.noConfusion h)
  | .list a, .list b =>
    match Value.decEqList a b with
    | isTrue h => isTrue (h ▸ rfl)
    | isFalse h => isFalse (fun c => h (Value.list.inj c))

/-- Decidable equality on lists of values. -/
def Value.decEqList : (a b : List Value) → Decidable (a = b)
  | [], [] => isTrue rfl
  | [], _ :: _ => isFalse (fun h => List.noConfusion h)
  | _ :: _, [] => isFalse (fun h => List.noConfusion h)
  | a :: as, b :: bs =>
    match Value.decEq a b with
    | isFalse h => isFalse (fun c => h (List.cons.inj c).1)
    | isTrue h1 =>
      match Value.decEqList as bs with
      | isTrue h2 => isTrue (by rw [h1, h2])
      | isFalse h2 => isFalse (fun c => h2 (List.cons.inj c).2)
end

instance : DecidableEq Value := Value.decEq

/-- Python truthiness (`if item:`) for the modelled values. -/
def Value.truthy : Value → Bool
  | .none => false
  | .bool b => b
  | .int n => n != 0
  | .str s => s != ""
  | .list l => !l.isEmpty

/-- Characters stripped by Python `str.strip()` with no argument. -/
def pySpace (c : Char) : Bool :=
  c = ' ' || c = '\t' || c = '\n' || c = '\r' || c = '\x0b' || c = '\x0c'

/-- Python `str.strip()`: drop leading and trailing whitespace. -/
def pyStrip (s : String) : String :=
  String.mk (((s.toList.dropWhile pySpace).reverse.dropWhile pySpace).reverse)

/-- Python `str.lower()` (ASCII case, which covers the controlled vocabularies). -/
def pyLower (s : String) : String :=
  String.mk (s.toList.map Char.toLower)

/-- Helper for `pySplit`: split a character list at every separator occurrence. -/
def pySplitAux (sep : Char) : List Char → List (List Char)
  | [] => [[]]
  | c :: cs =>
    let rest := pySplitAux sep cs
    if c = sep then [] :: rest
    else
      match rest with
      | g :: gs => (c :: g) :: gs
      | [] => [[c]]

/-- Python `str.split(sep)` for a one-character separator (keeps empty pieces). -/
def pySplit (sep : Char) (s : String) : List String :=
  (pySplitAux sep s.toList).map String.mk

/-- Python `sep.join(parts)`. -/
def joinSep (sep : String) : List String → String
  | [] => ""
  | [s] => s
  | s :: rest => s ++ sep ++ joinSep sep rest

/-- Python `str(int)`. -/
def intToString (n : Int) : String := toString n

mutual
/-- Python `repr` restricted to the modelled values. -/
def pyRepr : Value → String
  | .none => "None"
  | .bool b => if b then "True" else "False"
  | .int n => intToString n
  | .str s => "'" ++ s ++ "'"
  | .list l => "[" ++ pyReprList l ++ "]"
/-- Comma-separated reprs of a list's elements. -/
def pyReprList : List Value → String
  | [] => ""
  | [v] => pyRepr v
  | v :: rest => pyRepr v ++ ", " ++ pyReprList rest
end

/-- Python `str(value)`: identity on strings, `repr`-like elsewhere. -/
def pyStr : Value → String
  | .str s => s
  | v => pyRepr v

example : pyStrip "  flooding  " = "flooding" := by decide
example : pyLower "Flooding" = "flooding" := by decide
example : pySplit '.' "a. b." = ["a", " b", ""] := by decide
example : (Value.int 0).truthy = false := by decide

/-! ## Schema and validator (`NBSDataPipeline.validate_entry`) -/

/-- A raw or validated entry: a Python dict as an association list. -/
abbrev Entry := List (String × Value)

/-- `self.schema` of `NBSDataPipeline.__init__`: field name paired with
whether its declared type is `list` (`true`) or `str` (`false`), in the
source's insertion order. -/
def schemaFields : List (String × Bool) :=
  [("title", false), ("summary", false), ("status", false),
   ("location_name", false), ("country", false), ("scale", false),
   ("solution_types", true), ("challenges_addressed", true),
   ("health_linkages_primary", true), ("impacts", true),
   ("governance", false), ("url_source", false),
   ("environmental_context", false)]

/-- The 13 canonical schema keys in schema order. -/
def canonicalKeys : List String := schemaFields.map Prod.fst

/-- `self.valid_status`. -/
def valid_status : List String :=
  ["planned", "in-progress", "completed", "ongoing", "unknown"]

/-- `valid_scales` of `validate_entry`. -/
def valid_scales : List String :=
  ["site", "neighborhood", "city", "watershed", "regional", "unknown"]

/-- `valid_env_contexts` of `validate_entry`. -/
def valid_env_contexts : List String :=
  ["urban", "coastal", "wetland", "forest", "agricultural", "unknown"]

/-- Python `entry.get(field)`: the stored value, or `None` when the key is
absent (an explicit `None` value and a missing key are indistinguishable,
exactly as for the source's `if value is None` test). -/
def entryGet (e : Entry) (k : String) : Value :=
  match e.lookup k with
  | some v => v
  | Option.none => Value.none

/-- Python dict assignment `e[k] = v`: replace in place or append. -/
def setKey : Entry → String → Value → Entry
  | [], k, v => [(k, v)]
  | p :: rest, k, v => if p.1 = k then (k, v) :: rest else p :: setKey rest k v

/-- The enum-field branch: `value.lower() if value.lower() in valid else 'unknown'`.
Python's attribute lookup `value.lower` raises `AttributeError` on a
non-string value. -/
def enumClean (valid : List String) : Value → Except String Value
  | Value.str s =>
    Except.ok (Value.str (if valid.contains (pyLower s) then pyLower s else "unknown"))
  | _ => Except.error "AttributeError"

/-- One iteration of the set-typed-field loop of `validate_entry`
(`if item and str(item).strip(): ...`): keep an item that is truthy and
whose stringified, stripped form is non-empty; store it stripped and
lower-cased; skip a value already seen. -/
def cleanStep (acc : List String) (item : Value) : List String :=
  if item.truthy = true ∧ pyStrip (pyStr item) ≠ "" then
    let ci := pyLower (pyStrip (pyStr item))
    if acc.contains ci then acc else acc ++ [ci]
  else acc

/-- The set-typed-field loop of `validate_entry` over all items. -/
def cleanList (items : List Value) : List String := items.foldl cleanStep []

/-- The `summary` branch: strip, and when the text splits into more than 4
period-delimited pieces keep the first 4, strip each, rejoin with `". "`
and a trailing period. -/
def summaryClean (s0 : String) : String :=
  let s := pyStrip s0
  if 4 < (pySplit '.' s).length then
    joinSep ". " (((pySplit '.' s).take 4).map pyStrip) ++ "."
  else s

/-- The generic string branch: `str(value).strip() if str(value).strip() else 'unknown'`. -/
def strFieldClean (s : String) : String :=
  if pyStrip s = "" then "unknown" else pyStrip s

/-- One iteration of the `validate_entry` loop body for a field `field` whose
schema type is `list` iff `isList`, applied to `entry.get(field)`. An
`Except.error` models an uncaught Python exception. -/
def validateField (field : String) (isList : Bool) : Value → Except String Value
  | Value.none =>
    Except.ok (if isList then Value.list [] else Value.str "unknown")
  | v =>
    if field = "status" then enumClean valid_status v
    else if field = "scale" then enumClean valid_scales v
    else if field = "environmental_context" then enumClean valid_env_contexts v
    else if isList then
      match v with
      | Value.list l => Except.ok (Value.list ((cleanList l).map Value.str))
      | _ => Except.ok (Value.list [])
    else if field = "summary" then Except.ok (Value.str (summaryClean (pyStr v)))
    else Except.ok (Value.str (strFieldClean (pyStr v)))

/-- The `for field, field_type in self.schema.items()` loop, building the
`cleaned` dict in schema order and propagating the first exception. -/
def validateFields (entry : Entry) : List (String × Bool) → Except String Entry
  | [] => Except.ok []
  | fb :: rest => do
    let v ← validateField fb.1 fb.2 (entryGet entry fb.1)
    let tail ← validateFields entry rest
    pure ((fb.1, v) :: tail)

/-- `NBSDataPipeline.validate_entry`. -/
def validate_entry (entry : Entry) : Except String Entry :=
  validateFields entry schemaFields

example :
    cleanList [Value.str "Flooding", Value.str "flooding",
      Value.str " flooding ", Value.str ""] = ["flooding"] := by decide

example : validate_entry [("status", Value.int 5)] = Except.error "AttributeError" := rfl

example : (validate_entry []).toOption.map (List.map Prod.fst) = some canonicalKeys := by decide

example :
    (validate_entry [("summary", Value.str "S1. S2. S3. S4. S5. S6.")]).toOption.map
      (fun e => entryGet e "summary") = some (Value.str "S1. S2. S3. S4.") := by decide

/-- Decidable equality for `Except` results. -/
instance {ε α : Type} [DecidableEq ε] [DecidableEq α] : DecidableEq (Except ε α) := fun a b =>
  match a, b with
  | Except.error e, Except.error e' =>
    if h : e = e' then isTrue (by rw [h]) else isFalse (fun c => h (Except.error.inj c))
  | Except.error _, Except.ok _ => isFalse (fun c => Except.noConfusion c)
  | Except.ok _, Except.error _ => isFalse (fun c => Except.noConfusion c)
  | Except.ok v, Except.ok v' =>
    if h : v = v' then isTrue (by rw [h]) else isFalse (fun c => h (Except.ok.inj c))

/-! ## Output file, loader (`load_existing_data`) and writer (`save_data`) -/

/-- State of a file the pipeline may read: absent, unreadable/unparseable,
or parseable with the given rows. -/
inductive FileRead where
  | absent : FileRead
  | corrupt : FileRead
  | content : List Entry → FileRead
deriving DecidableEq

/-- `pd.read_csv` on the modelled file: raises unless the file parses. -/
def read_csv : FileRead → Except String (List Entry)
  | FileRead.content rows => Except.ok rows
  | FileRead.corrupt => Except.error "ParserError"
  | FileRead.absent => Except.error "FileNotFoundError"

/-- `NBSDataPipeline.load_existing_data`: return the parsed rows when the file
exists and parses; the broad `except` turns any read error into an empty
dataset, so the function itself never raises. -/
def load_existing_data (f : FileRead) : List Entry :=
  match f with
  | FileRead.absent => []
  | f' =>
    match read_csv f' with
    | Except.ok rows => rows
    | Except.error _ => []

/-- File-system effects performed by `save_data`, in program order. -/
inductive WriteEvent where
  | makedirs : String → WriteEvent
  | dataset : String → String → List Entry → WriteEvent
  | dictionary : String → WriteEvent
deriving DecidableEq

/-- `os.path.dirname`: everything before the last `/`, else `""`. -/
def dirName (path : String) : String :=
  match (pySplit '/' path).dropLast with
  | [] => ""
  | parts => joinSep "/" parts

/-- `os.path.splitext(p)[0] + '_dictionary.json'`: the sibling data-dictionary path. -/
def dictPath (path : String) : String :=
  (match pySplit '.' path with
   | [p] => p
   | parts => joinSep "." parts.dropLast) ++ "_dictionary.json"

/-- `NBSDataPipeline.save_data`: the events performed, paired with the
uncaught exception, if any. The directory is created first; then the format
dispatch either writes the dataset file in the requested format and the
data-dictionary document, or raises `ValueError` for an unsupported format
before writing anything. -/
def save_data (df : List Entry) (output_path : String) (format : String) :
    List WriteEvent × Option String :=
  let pre := if dirName output_path ≠ "" then [WriteEvent.makedirs (dirName output_path)] else []
  if format = "csv" ∨ format = "json" ∨ format = "excel" then
    (pre ++ [WriteEvent.dataset output_path format df,
             WriteEvent.dictionary (dictPath output_path)], Option.none)
  else
    (pre, some ("Unsupported format: " ++ format))

/-! ## Incremental directory processor (`NBSDataPipeline.process_directory`) -/

/-- One entry of `metadata['successful_files']` (download_metadata.json). -/
structure MetaEntry where
  filename : Option String
  link : Option String
deriving DecidableEq

/-- The optional per-directory metadata document. -/
structure Metadata where
  successful_files : Option (List MetaEntry)
deriving DecidableEq

/-- URL resolution at the top of the per-file loop: scan
`metadata['successful_files']` for the first entry whose `filename` equals
the file's name and take its `link` (default `"unknown"`). -/
def resolveUrl (md : Option Metadata) (fileName : String) : String :=
  match md with
  | Option.none => "unknown"
  | some m =>
    match m.successful_files with
    | Option.none => "unknown"
    | some entries =>
      match entries.find? (fun e => e.filename = some fileName) with
      | Option.none => "unknown"
      | some e => e.link.getD "unknown"

/-- One HTML file of the input directory, together with the outcomes of the
external effects its processing triggers: `parsed` is what
`parse_html` returns (or the exception it raises), `llm` is what
`extract_info_with_llm` returns for this file's prompt (`none` models the
caught-and-logged extraction failure), and `save_ok` tells whether the
incremental `save_data` call for this file's checkpoint succeeds. -/
structure InputFile where
  name : String
  path : String
  parsed : Except String String
  llm : Option Entry
  save_ok : Bool
deriving DecidableEq

/-- Mutable state of the processing loop: the in-memory `entries` list, the
current content of the output file, and how often the LLM client was called. -/
structure LoopState where
  entries : List Entry
  fileContent : FileRead
  llm_calls : Nat
deriving DecidableEq

/-- The body of the `try:` block for one file: the state after the body
(including mutations made before an exception) and the exception, if one
was raised. Mirrors the source order: duplicate-URL skip, `parse_html`,
content-length check, LLM call, provenance-key assignment, `validate_entry`,
append, incremental `save_data`. -/
def processFileBody (src : Option String) (md : Option Metadata) (urls : List Value)
    (st : LoopState) (f : InputFile) : LoopState × Option String :=
  let url := resolveUrl md f.name
  if url ≠ "unknown" ∧ Value.str url ∈ urls then (st, Option.none)
  else
    match f.parsed with
    | Except.error e => (st, some e)
    | Except.ok text =>
      if text = "" ∨ (pyStrip text).length < 100 then (st, Option.none)
      else
        let st1 := { st with llm_calls := st.llm_calls + 1 }
        match f.llm with
        | Option.none => (st1, Option.none)
        | some extracted =>
          if extracted = [] then (st1, Option.none)
          else
            let e1 := setKey extracted "url_source" (Value.str url)
            let e2 := match src with
              | some s => setKey e1 "data_source" (Value.str s)
              | Option.none => e1
            let e3 := setKey e2 "source_file" (Value.str f.path)
            match validate_entry e3 with
            | Except.error err => (st1, some err)
            | Except.ok validated =>
              let st2 := { st1 with entries := st1.entries ++ [validated] }
              if f.save_ok then
                ({ st2 with fileContent := FileRead.content st2.entries }, Option.none)
              else (st2, some "IOError")

/-- One iteration of the loop: the `except` clause logs and swallows
whatever the body raised, keeping the body's state. -/
def processFile (src : Option String) (md : Option Metadata) (urls : List Value)
    (st : LoopState) (f : InputFile) : LoopState :=
  (processFileBody src md urls st f).1

/-- The whole `for file_path in tqdm(html_files, ...)` loop. -/
def runLoop (src : Option String) (md : Option Metadata) (urls : List Value)
    (st : LoopState) (files : List InputFile) : LoopState :=
  files.foldl (processFile src md urls) st

/-- The record appended for a file when its URL is not skipped, as a function
of the file's oracles, the resolved URL and the source type; `none` when the
file contributes nothing (parse failure, short text, LLM failure, or a
validation exception). -/
def attempt (src : Option String) (f : InputFile) (url : String) : Option Entry :=
  match f.parsed with
  | Except.error _ => Option.none
  | Except.ok text =>
    if text = "" ∨ (pyStrip text).length < 100 then Option.none
    else
      match f.llm with
      | Option.none => Option.none
      | some extracted =>
        if extracted = [] then Option.none
        else
          let e1 := setKey extracted "url_source" (Value.str url)
          let e2 := match src with
            | some s => setKey e1 "data_source" (Value.str s)
            | Option.none => e1
          let e3 := setKey e2 "source_file" (Value.str f.path)
          match validate_entry e3 with
          | Except.error _ => Option.none
          | Except.ok validated => some validated

/-- The run statistics persisted after the loop (`processing_stats.json`).
The success rate is kept as its numerator and denominator; computing it is
what divides by the number of HTML files. -/
structure Stats where
  total_files : Nat
  processed_files : Nat
  success_num : Nat
  success_den : Nat
  processed_date : String
  source_type : String
deriving DecidableEq

/-- Everything `process_directory` produces: the final loop state (in-memory
entries, output-file content, LLM call count), the statistics document, and
the returned data frame rows. -/
structure RunOutcome where
  final : LoopState
  stats : Option Stats
  returned : List Entry
deriving DecidableEq

/-- Input of one `process_directory` run: the output file's prior state, the
result of listing `*.html` (listing failure is the one directory-level
error), the optional metadata document, the `source_type` argument and the
current timestamp. -/
structure RunInput where
  outFile : FileRead
  listing : Except String (List InputFile)
  metadata : Option Metadata
  source_type : Option String
  now : String
deriving DecidableEq

/-- Does any row carry the column? (`field not in df.columns`). -/
def hasColumn (rows : List Entry) (field : String) : Bool :=
  rows.any (fun r => r.any (fun p => p.1 = field))

/-- The `for field in self.schema.keys()` fill-in loop over the final frame:
a missing string column is filled with `'unknown'`; assigning `[]` as a
missing list column to a non-empty frame raises `ValueError` in pandas. -/
def ensureFields (rows : List Entry) : Except String (List Entry) :=
  schemaFields.foldlM (fun rs fb =>
    if hasColumn rs fb.1 then Except.ok rs
    else if fb.2 then Except.error "ValueError"
    else Except.ok (rs.map (fun r => r ++ [(fb.1, Value.str "unknown")]))) rows

/-- Set a column on every row (`df[k] = v`). -/
def addCol (rows : List Entry) (k : String) (v : Value) : List Entry :=
  rows.map (fun r => setKey r k v)

/-- `set(existing_df['url_source'].tolist()) if not existing_df.empty else set()`:
the skip set of the run. A non-empty loaded frame without a `url_source`
column raises `KeyError` (all rows of a CSV-loaded frame share one column
list, so the head row decides). -/
def loadUrls (existing : List Entry) : Except String (List Value) :=
  match existing with
  | [] => Except.ok []
  | r :: _ =>
    if r.any (fun p => p.1 = "url_source") then
      Except.ok (existing.map (fun row => entryGet row "url_source"))
    else Except.error "KeyError"

/-- The post-loop section of `process_directory`: on an empty entry list
return an empty frame (and write no statistics); otherwise fill missing
schema columns (`ensureFields`), attach `processed_date`/`data_source` to
the *returned* frame, and build the statistics — whose success rate divides
by the number of HTML files, a `ZeroDivisionError` when none were listed. -/
def finishRun (files : List InputFile) (source_type : Option String) (now : String)
    (st : LoopState) : Except String RunOutcome :=
  if st.entries = [] then
    Except.ok { final := st, stats := Option.none, returned := [] }
  else do
    let rows ← ensureFields st.entries
    let rows := addCol rows "processed_date" (Value.str now)
    let rows := match source_type with
      | some s => addCol rows "data_source" (Value.str s)
      | Option.none => rows
    if files.length = 0 then Except.error "ZeroDivisionError"
    else
      Except.ok { final := st,
                  stats := some { total_files := files.length,
                                  processed_files := st.entries.length,
                                  success_num := st.entries.length,
                                  success_den := files.length,
                                  processed_date := now,
                                  source_type := source_type.getD "unknown" },
                  returned := rows }

/-- `NBSDataPipeline.process_directory`. Loads the existing dataset, takes its
`url_source` column as the skip set, folds the per-file loop over the
listed files, then runs the post-loop section. An `Except.error` is an
exception reaching the caller; listing failure is the directory-level
error. -/
def process_directory (inp : RunInput) : Except String RunOutcome := do
  let files ← inp.listing
  let existing := load_existing_data inp.outFile
  let existing_urls ← loadUrls existing
  finishRun files inp.source_type inp.now
    (runLoop inp.source_type inp.metadata existing_urls
      { entries := existing, fileContent := inp.outFile, llm_calls := 0 } files)

/-- `url_source` column of a list of rows. -/
def urlsOf (rows : List Entry) : List Value :=
  rows.map (fun r => entryGet r "url_source")


/-! ## Concrete fixtures used by the claim theorems -/

/-- A 150-character extracted text (above the 100-character threshold). -/
def longText : String := "Restoration of urban wetlands in Copenhagen to reduce flooding risk by removing invasive species and replanting native vegetation across the district."

/-- A well-formed LLM reply covering all 13 schema fields. -/
def llmEntry : Entry :=
  [("title", Value.str "Urban Wetland Restoration"),
   ("summary", Value.str "Restores wetlands."),
   ("status", Value.str "completed"),
   ("location_name", Value.str "Copenhagen"),
   ("country", Value.str "Denmark"),
   ("scale", Value.str "city"),
   ("solution_types", Value.list [Value.str "urban wetlands"]),
   ("challenges_addressed", Value.list [Value.str "flooding"]),
   ("health_linkages_primary", Value.list []),
   ("impacts", Value.list []),
   ("governance", Value.str "Municipality"),
   ("url_source", Value.str "unknown"),
   ("environmental_context", Value.str "urban")]

/-- A fully-populated persisted row, as an earlier run would have written it. -/
def existingRow : Entry :=
  [("title", Value.str "Urban Wetland Restoration"),
   ("summary", Value.str "Restores wetlands."),
   ("status", Value.str "completed"),
   ("location_name", Value.str "Copenhagen"),
   ("country", Value.str "Denmark"),
   ("scale", Value.str "city"),
   ("solution_types", Value.list [Value.str "urban wetlands"]),
   ("challenges_addressed", Value.list [Value.str "flooding"]),
   ("health_linkages_primary", Value.list []),
   ("impacts", Value.list []),
   ("governance", Value.str "Municipality"),
   ("url_source", Value.str "https://example.org/a"),
   ("environmental_context", Value.str "urban")]

/-- An input file that parses and extracts successfully. -/
def fileA : InputFile :=
  { name := "a.html", path := "raw/a.html", parsed := Except.ok longText,
    llm := some llmEntry, save_ok := true }

/-- A second successful input file. -/
def fileA2 : InputFile :=
  { name := "a2.html", path := "raw/a2.html", parsed := Except.ok longText,
    llm := some llmEntry, save_ok := true }

/-- A file on which the LLM extraction fails (client returns `None`). -/
def fileLlmFail : InputFile :=
  { name := "b.html", path := "raw/b.html", parsed := Except.ok longText,
    llm := Option.none, save_ok := true }

/-- Metadata resolving both `a.html` and `a2.html` to the same URL. -/
def mdDup : Metadata :=
  { successful_files := some
      [ { filename := some "a.html", link := some "https://example.org/a" },
        { filename := some "a2.html", link := some "https://example.org/a" } ] }

/-- A run over two files that resolve to the same URL, on a fresh output path. -/
def runDup : RunInput :=
  { outFile := FileRead.absent, listing := Except.ok [fileA, fileA2],
    metadata := some mdDup, source_type := some "oppla", now := "2026-01-01 00:00:00" }

/-! ## Helper lemmas -/

theorem entryGet_nil (k : String) : entryGet [] k = Value.none := rfl

theorem entryGet_cons (p : String × Value) (rest : Entry) (k : String) :
    entryGet (p :: rest) k = if k = p.1 then p.2 else entryGet rest k := by
  rcases p with ⟨a, b⟩
  by_cases h : k = a
  · simp [entryGet, List.lookup, h]
  · simp [entryGet, List.lookup, beq_eq_false_iff_ne.mpr h, h]

theorem entryGet_setKey_same (e : Entry) (k : String) (v : Value) :
    entryGet (setKey e k v) k = v := by
  induction e with
  | nil => simp [setKey, entryGet_cons, entryGet_nil]
  | cons p rest ih =>
    by_cases h : p.1 = k
    · simp [setKey, h, entryGet_cons]
    · rw [setKey, if_neg h, entryGet_cons, if_neg (Ne.symm h)]
      exact ih

theorem entryGet_setKey_other (e : Entry) (k k' : String) (v : Value) (h : k' ≠ k) :
    entryGet (setKey e k v) k' = entryGet e k' := by
  induction e with
  | nil => simp [setKey, entryGet_cons, entryGet_nil, h]
  | cons p rest ih =>
    by_cases hp : p.1 = k
    · subst hp
      simp [setKey, entryGet_cons, h]
    · rw [setKey, if_neg hp, entryGet_cons, entryGet_cons]
      by_cases hk' : k' = p.1
      · simp [hk']
      · rw [if_neg hk', if_neg hk']
        exact ih

theorem except_bind_ok {ε α β : Type} (x : Except ε α) (f : α → Except ε β) (b : β) :
    (x.bind f = Except.ok b) ↔ ∃ a, x = Except.ok a ∧ f a = Except.ok b := by
  cases x with
  | error e => simp [Except.bind]
  | ok a => simp [Except.bind]

theorem validateFields_keys (entry : Entry) :
    ∀ (fields : List (String × Bool)) (out : Entry),
      validateFields entry fields = Except.ok out →
      out.map Prod.fst = fields.map Prod.fst := by
  intro fields
  induction fields with
  | nil => intro out h; simp [validateFields] at h; simp [← h]
  | cons fb rest ih =>
    intro out h
    simp only [validateFields, bind, pure] at h
    rw [except_bind_ok] at h
    obtain ⟨v, hv, h⟩ := h
    rw [except_bind_ok] at h
    obtain ⟨tail, htail, h⟩ := h
    simp only [Except.pure] at h
    cases h
    simp [ih tail htail]

theorem validateFields_get (entry : Entry) :
    ∀ (fields : List (String × Bool)) (out : Entry),
      validateFields entry fields = Except.ok out →
      (fields.map Prod.fst).Nodup →
      ∀ f b, (f, b) ∈ fields →
        ∃ v, validateField f b (entryGet entry f) = Except.ok v ∧ entryGet out f = v := by
  intro fields
  induction fields with
  | nil => intro out _ _ f b hmem; simp at hmem
  | cons fb rest ih =>
    intro out h hnd f b hmem
    simp only [validateFields, bind, pure] at h
    rw [except_bind_ok] at h
    obtain ⟨v, hv, h⟩ := h
    rw [except_bind_ok] at h
    obtain ⟨tail, htail, h⟩ := h
    simp only [Except.pure] at h
    cases h
    simp only [List.map_cons, List.nodup_cons] at hnd
    rcases List.mem_cons.mp hmem with heq | hrest
    · cases heq
      exact ⟨v, hv, by simp [entryGet_cons]⟩
    · have hne : f ≠ fb.1 := by
        intro hc
        exact hnd.1 (hc ▸ List.mem_map_of_mem Prod.fst hrest)
      obtain ⟨w, hw, hout⟩ := ih tail htail hnd.2 f b hrest
      refine ⟨w, hw, ?_⟩
      rw [entryGet_cons, if_neg hne]
      exact hout

theorem validateFields_total (entry : Entry) :
    ∀ (fields : List (String × Bool)),
      (∀ fb ∈ fields, ∃ v, validateField fb.1 fb.2 (entryGet entry fb.1) = Except.ok v) →
      ∃ out, validateFields entry fields = Except.ok out := by
  intro fields
  induction fields with
  | nil => intro _; exact ⟨[], rfl⟩
  | cons fb rest ih =>
    intro h
    obtain ⟨v, hv⟩ := h fb (List.mem_cons_self fb rest)
    obtain ⟨tail, htail⟩ := ih (fun fb' hmem => h fb' (List.mem_cons_of_mem fb hmem))
    refine ⟨(fb.1, v) :: tail, ?_⟩
    simp [validateFields, bind, Except.bind, hv, htail, pure, Except.pure]

/-- Is a value a string? (the claim-side type constraint for scalar fields). -/
def isStrValue : Value → Bool
  | Value.str _ => true
  | _ => false

/-- Is a value a list all of whose elements are strings? -/
def isStrListValue : Value → Bool
  | Value.list l => l.all isStrValue
  | _ => false

/-- Is a value a string belonging to the given controlled vocabulary? -/
def inVocab (valid : List String) : Value → Bool
  | Value.str s => valid.contains s
  | _ => false

/-- The claim-side per-field constraint: enum fields hold a member of their
closed vocabulary, set-typed fields hold a list of strings, and every other
field holds a string. -/
def fieldConstraint (f : String) (isList : Bool) (v : Value) : Bool :=
  if f = "status" then inVocab valid_status v
  else if f = "scale" then inVocab valid_scales v
  else if f = "environmental_context" then inVocab valid_env_contexts v
  else if isList then isStrListValue v
  else isStrValue v

theorem enumClean_ok_shape (valid : List String) (hunk : "unknown" ∈ valid)
    (v w : Value) (h : enumClean valid v = Except.ok w) :
    ∃ s, w = Value.str s ∧ s ∈ valid := by
  cases v with
  | str s =>
    simp only [enumClean] at h
    cases h
    by_cases hc : pyLower s ∈ valid
    · refine ⟨pyLower s, ?_, hc⟩
      simp [hc]
    · refine ⟨"unknown", ?_, hunk⟩
      simp [hc]
  | none => simp [enumClean] at h
  | bool b => simp [enumClean] at h
  | int n => simp [enumClean] at h
  | list l => simp [enumClean] at h

theorem validateField_total_strOrNone (f : String) (b : Bool) (v : Value)
    (hv : v = Value.none ∨ ∃ s, v = Value.str s) :
    ∃ w, validateField f b v = Except.ok w := by
  rcases hv with rfl | ⟨s, rfl⟩
  · exact ⟨_, rfl⟩
  · simp only [validateField]
    split_ifs <;> exact ⟨_, rfl⟩

theorem validateField_total_nonenum (f : String) (b : Bool) (v : Value)
    (h1 : f ≠ "status") (h2 : f ≠ "scale") (h3 : f ≠ "environmental_context") :
    ∃ w, validateField f b v = Except.ok w := by
  cases v with
  | none => exact ⟨_, rfl⟩
  | bool x => simp only [validateField, if_neg h1, if_neg h2, if_neg h3]; split_ifs <;> exact ⟨_, rfl⟩
  | int x => simp only [validateField, if_neg h1, if_neg h2, if_neg h3]; split_ifs <;> exact ⟨_, rfl⟩
  | str x => simp only [validateField, if_neg h1, if_neg h2, if_neg h3]; split_ifs <;> exact ⟨_, rfl⟩
  | list x => simp only [validateField, if_neg h1, if_neg h2, if_neg h3]; split_ifs <;> exact ⟨_, rfl⟩

theorem validateField_false_ok_str (f : String) (v w : Value)
    (h : validateField f false v = Except.ok w) : isStrValue w = true := by
  cases v <;> simp only [validateField] at h <;>
    split_ifs at h <;>
    first
      | contradiction
      | (simp only [enumClean] at h; cases h <;> rfl)
      | (cases h <;> rfl)

theorem validateField_true_ok_list (f : String) (v w : Value)
    (h1 : f ≠ "status") (h2 : f ≠ "scale") (h3 : f ≠ "environmental_context")
    (h : validateField f true v = Except.ok w) : isStrListValue w = true := by
  cases v <;> simp only [validateField, if_neg h1, if_neg h2, if_neg h3] at h <;>
    split_ifs at h <;>
    first
      | contradiction
      | (cases h <;> simp [isStrListValue, List.all_eq_true, isStrValue])

theorem validateField_status_constraint (v w : Value)
    (h : validateField "status" false v = Except.ok w) :
    fieldConstraint "status" false w = true := by
  cases v with
  | none =>
    simp [validateField] at h
    subst h
    decide
  | str s =>
    obtain ⟨t, rfl, hmem⟩ :=
      enumClean_ok_shape valid_status (by decide) _ w (by simpa [validateField] using h)
    simp [fieldConstraint, inVocab, hmem]
  | bool x => simp [validateField, enumClean] at h
  | int x => simp [validateField, enumClean] at h
  | list x => simp [validateField, enumClean] at h

theorem validateField_scale_constraint (v w : Value)
    (h : validateField "scale" false v = Except.ok w) :
    fieldConstraint "scale" false w = true := by
  cases v with
  | none =>
    simp [validateField] at h
    subst h
    decide
  | str s =>
    obtain ⟨t, rfl, hmem⟩ :=
      enumClean_ok_shape valid_scales (by decide) _ w (by simpa [validateField] using h)
    simp [fieldConstraint, inVocab, hmem]
  | bool x => simp [validateField, enumClean] at h
  | int x => simp [validateField, enumClean] at h
  | list x => simp [validateField, enumClean] at h

theorem validateField_env_constraint (v w : Value)
    (h : validateField "environmental_context" false v = Except.ok w) :
    fieldConstraint "environmental_context" false w = true := by
  cases v with
  | none =>
    simp [validateField] at h
    subst h
    decide
  | str s =>
    obtain ⟨t, rfl, hmem⟩ :=
      enumClean_ok_shape valid_env_contexts (by decide) _ w (by simpa [validateField] using h)
    simp [fieldConstraint, inVocab, hmem]
  | bool x => simp [validateField, enumClean] at h
  | int x => simp [validateField, enumClean] at h
  | list x => simp [validateField, enumClean] at h

theorem validateField_ok_constraint (f : String) (b : Bool) (v w : Value)
    (hmem : (f, b) ∈ schemaFields) (h : validateField f b v = Except.ok w) :
    fieldConstraint f b w = true := by
  by_cases h1 : f = "status"
  · subst h1
    have hbf : b = false := by simpa [schemaFields] using hmem
    subst hbf
    exact validateField_status_constraint v w h
  by_cases h2 : f = "scale"
  · subst h2
    have hbf : b = false := by simpa [schemaFields] using hmem
    subst hbf
    exact validateField_scale_constraint v w h
  by_cases h3 : f = "environmental_context"
  · subst h3
    have hbf : b = false := by simpa [schemaFields] using hmem
    subst hbf
    exact validateField_env_constraint v w h
  cases b with
  | false =>
    have hw := validateField_false_ok_str f v w h
    simp [fieldConstraint, h1, h2, h3, hw]
  | true =>
    have hw := validateField_true_ok_list f v w h1 h2 h3 h
    simp [fieldConstraint, h1, h2, h3, hw]

/-- C1 (amended): for every input mapping whose `status`, `scale` and
`environmental_context` values, when present and non-null, are strings (as
any JSON reply of the LLM supplies), `validate_entry` raises no exception
and returns a mapping with exactly the 13 canonical schema keys in schema
order, each value satisfying its field's type and enum constraint. (The
unamended claim is refuted by `validate_entry_raises_on_int_status`: a
non-string enum value hits Python's `value.lower()` and raises
`AttributeError`.) -/
theorem validate_entry_total_on_str_enums (entry : Entry)
    (hs : entryGet entry "status" = Value.none ∨ ∃ s, entryGet entry "status" = Value.str s)
    (hsc : entryGet entry "scale" = Value.none ∨ ∃ s, entryGet entry "scale" = Value.str s)
    (he : entryGet entry "environmental_context" = Value.none ∨
      ∃ s, entryGet entry "environmental_context" = Value.str s) :
    ∃ out, validate_entry entry = Except.ok out ∧
      out.map Prod.fst = canonicalKeys ∧
      ∀ fb ∈ schemaFields, fieldConstraint fb.1 fb.2 (entryGet out fb.1) = true := by
  have htot : ∀ fb ∈ schemaFields,
      ∃ v, validateField fb.1 fb.2 (entryGet entry fb.1) = Except.ok v := by
    intro fb _
    by_cases h1 : fb.1 = "status"
    · rw [h1]
      exact validateField_total_strOrNone _ _ _ hs
    by_cases h2 : fb.1 = "scale"
    · rw [h2]
      exact validateField_total_strOrNone _ _ _ hsc
    by_cases h3 : fb.1 = "environmental_context"
    · rw [h3]
      exact validateField_total_strOrNone _ _ _ he
    exact validateField_total_nonenum _ _ _ h1 h2 h3
  obtain ⟨out, hout⟩ := validateFields_total entry schemaFields htot
  refine ⟨out, hout, validateFields_keys entry schemaFields out hout, ?_⟩
  intro fb hmemfb
  have hpair : (fb.1, fb.2) ∈ schemaFields := by simpa using hmemfb
  obtain ⟨v, hv, hget⟩ := validateFields_get entry schemaFields out hout (by decide) fb.1 fb.2 hpair
  rw [hget]
  exact validateField_ok_constraint fb.1 fb.2 _ v hpair hv

/-- Witness for C1 (amended), at the empty mapping: all defaults are filled
in and every constraint holds. -/
theorem validate_entry_total_on_str_enums_witness :
    ∃ out, validate_entry [] = Except.ok out ∧
      out.map Prod.fst = canonicalKeys ∧
      ∀ fb ∈ schemaFields, fieldConstraint fb.1 fb.2 (entryGet out fb.1) = true :=
  validate_entry_total_on_str_enums [] (Or.inl rfl) (Or.inl rfl) (Or.inl rfl)

/-- C1 counterexample: on the mapping `{'status': 5}` the validator hits
`value.lower()` on an integer and raises `AttributeError` instead of
returning a record, refuting "never raises ... including wrong-typed
values". -/
theorem validate_entry_raises_on_int_status :
    validate_entry [("status", Value.int 5)] = Except.error "AttributeError" := rfl

/-! ## Loop lemmas for the directory processor -/

theorem processFile_skip (src : Option String) (md : Option Metadata) (urls : List Value)
    (st : LoopState) (f : InputFile)
    (h1 : resolveUrl md f.name ≠ "unknown")
    (h2 : Value.str (resolveUrl md f.name) ∈ urls) :
    processFile src md urls st f = st := by
  simp [processFile, processFileBody, h1, h2]

theorem processFile_entries (src : Option String) (md : Option Metadata) (urls : List Value)
    (st : LoopState) (f : InputFile) :
    (processFile src md urls st f).entries =
      if resolveUrl md f.name ≠ "unknown" ∧ Value.str (resolveUrl md f.name) ∈ urls then
        st.entries
      else
        match attempt src f (resolveUrl md f.name) with
        | Option.none => st.entries
        | some r => st.entries ++ [r] := by
  obtain ⟨nm, pth, parsed, llm, sv⟩ := f
  by_cases hskip : resolveUrl md nm ≠ "unknown" ∧ Value.str (resolveUrl md nm) ∈ urls
  · rw [if_pos hskip]
    simp [processFile, processFileBody, hskip]
  · rw [if_neg hskip]
    simp only [processFile, processFileBody, attempt, if_neg hskip]
    cases parsed with
    | error e => rfl
    | ok text =>
      by_cases hshort : text = "" ∨ (pyStrip text).length < 100
      · simp only [if_pos hshort]
      · simp only [if_neg hshort]
        cases llm with
        | none => rfl
        | some extracted =>
          by_cases hemp : extracted = []
          · simp only [if_pos hemp]
          · simp only [if_neg hemp]
            cases src with
            | none =>
              cases validate_entry (setKey (setKey extracted "url_source"
                  (Value.str (resolveUrl md nm))) "source_file" (Value.str pth)) with
              | error err => rfl
              | ok validated => cases sv <;> rfl
            | some sstr =>
              cases validate_entry (setKey (setKey (setKey extracted "url_source"
                  (Value.str (resolveUrl md nm))) "data_source" (Value.str sstr))
                  "source_file" (Value.str pth)) with
              | error err => rfl
              | ok validated => cases sv <;> rfl

theorem processFileBody_error_fileContent (src : Option String) (md : Option Metadata)
    (urls : List Value) (st : LoopState) (f : InputFile)
    (h : (processFileBody src md urls st f).2.isSome = true) :
    (processFile src md urls st f).fileContent = st.fileContent := by
  obtain ⟨nm, pth, parsed, llm, sv⟩ := f
  by_cases hskip : resolveUrl md nm ≠ "unknown" ∧ Value.str (resolveUrl md nm) ∈ urls
  · simp [processFile, processFileBody, hskip]
  · simp only [processFile, processFileBody, if_neg hskip] at h ⊢
    cases parsed with
    | error e => rfl
    | ok text =>
      by_cases hshort : text = "" ∨ (pyStrip text).length < 100
      · simp only [if_pos hshort]
      · simp only [if_neg hshort] at h ⊢
        cases llm with
        | none => rfl
        | some extracted =>
          by_cases hemp : extracted = []
          · simp only [if_pos hemp]
          · simp only [if_neg hemp] at h ⊢
            cases src with
            | none =>
              rcases hv : validate_entry (setKey (setKey extracted "url_source"
                  (Value.str (resolveUrl md nm))) "source_file" (Value.str pth)) with err | validated
              · rfl
              · simp only [hv] at h ⊢
                cases sv with
                | true => simp at h
                | false => rfl
            | some sstr =>
              rcases hv : validate_entry (setKey (setKey (setKey extracted "url_source"
                  (Value.str (resolveUrl md nm))) "data_source" (Value.str sstr))
                  "source_file" (Value.str pth)) with err | validated
              · rfl
              · simp only [hv] at h ⊢
                cases sv with
                | true => simp at h
                | false => rfl

theorem processFile_entries_prefix (src : Option String) (md : Option Metadata)
    (urls : List Value) (st : LoopState) (f : InputFile) :
    ∃ t, (processFile src md urls st f).entries = st.entries ++ t := by
  rw [processFile_entries]
  by_cases hskip : resolveUrl md f.name ≠ "unknown" ∧ Value.str (resolveUrl md f.name) ∈ urls
  · exact ⟨[], by simp [hskip]⟩
  · rw [if_neg hskip]
    cases attempt src f (resolveUrl md f.name) with
    | none => exact ⟨[], by simp⟩
    | some r => exact ⟨[r], rfl⟩

theorem runLoop_cons (src : Option String) (md : Option Metadata) (urls : List Value)
    (st : LoopState) (f : InputFile) (rest : List InputFile) :
    runLoop src md urls st (f :: rest) = runLoop src md urls (processFile src md urls st f) rest := rfl

theorem runLoop_append (src : Option String) (md : Option Metadata) (urls : List Value)
    (st : LoopState) (l1 l2 : List InputFile) :
    runLoop src md urls st (l1 ++ l2) = runLoop src md urls (runLoop src md urls st l1) l2 := by
  simp [runLoop, List.foldl_append]

theorem runLoop_entries_prefix (src : Option String) (md : Option Metadata) (urls : List Value) :
    ∀ (files : List InputFile) (st : LoopState),
    ∃ t, (runLoop src md urls st files).entries = st.entries ++ t := by
  intro files
  induction files with
  | nil => exact fun st => ⟨[], by simp [runLoop]⟩
  | cons f rest ih =>
    intro st
    obtain ⟨t1, h1⟩ := processFile_entries_prefix src md urls st f
    obtain ⟨t2, h2⟩ := ih (processFile src md urls st f)
    exact ⟨t1 ++ t2, by rw [runLoop_cons, h2, h1, List.append_assoc]⟩

theorem runLoop_coverage (src : Option String) (md : Option Metadata) (urls0 : List Value) :
    ∀ (files : List InputFile) (st0 : LoopState) (f : InputFile), f ∈ files →
      (resolveUrl md f.name ≠ "unknown" ∧ Value.str (resolveUrl md f.name) ∈ urls0)
      ∨ (∀ r, attempt src f (resolveUrl md f.name) = some r →
          r ∈ (runLoop src md urls0 st0 files).entries) := by
  intro files
  induction files with
  | nil => intro st0 f hf; simp at hf
  | cons g rest ih =>
    intro st0 f hf
    rcases List.mem_cons.mp hf with rfl | hrest
    · by_cases hskip : resolveUrl md f.name ≠ "unknown" ∧ Value.str (resolveUrl md f.name) ∈ urls0
      · exact Or.inl hskip
      · refine Or.inr (fun r hr => ?_)
        have hstep : (processFile src md urls0 st0 f).entries = st0.entries ++ [r] := by
          rw [processFile_entries, if_neg hskip, hr]
        have hmem : r ∈ (processFile src md urls0 st0 f).entries := by
          rw [hstep]; simp
        obtain ⟨t, ht⟩ := runLoop_entries_prefix src md urls0 rest (processFile src md urls0 st0 f)
        rw [runLoop_cons, ht]
        exact List.mem_append_left t hmem
    · rcases ih (processFile src md urls0 st0 g) f hrest with hl | hr
      · exact Or.inl hl
      · refine Or.inr (fun r hrat => ?_)
        rw [runLoop_cons]
        exact hr r hrat

theorem validate_entry_url (e : Entry) (out : Entry) (u : String)
    (hu : entryGet e "url_source" = Value.str u)
    (h : validate_entry e = Except.ok out) :
    entryGet out "url_source" = Value.str (strFieldClean u) := by
  obtain ⟨v, hv, hget⟩ :=
    validateFields_get e schemaFields out h (by decide) "url_source" false (by decide)
  rw [hget, hu] at *
  have hcomp : validateField "url_source" false (Value.str u) =
      Except.ok (Value.str (strFieldClean u)) := by
    simp [validateField, pyStr]
  rw [hu, hcomp] at hv
  rw [hget]
  exact (Except.ok.inj hv).symm

theorem attempt_url (src : Option String) (f : InputFile) (url : String) (r : Entry)
    (h : attempt src f url = some r) :
    entryGet r "url_source" = Value.str (strFieldClean url) := by
  obtain ⟨nm, pth, parsed, llm, sv⟩ := f
  cases parsed with
  | error e => simp [attempt] at h
  | ok text =>
    simp only [attempt] at h
    by_cases hshort : text = "" ∨ (pyStrip text).length < 100
    · rw [if_pos hshort] at h; simp at h
    · rw [if_neg hshort] at h
      cases llm with
      | none => simp at h
      | some extracted =>
        dsimp only at h
        by_cases hemp : extracted = []
        · rw [if_pos hemp] at h; simp at h
        · rw [if_neg hemp] at h
          cases src with
          | none =>
            rcases hv : validate_entry (setKey (setKey extracted "url_source"
                (Value.str url)) "source_file" (Value.str pth)) with err | validated
            · simp only [hv] at h; simp at h
            · simp only [hv] at h
              cases h
              apply validate_entry_url _ _ url ?_ hv
              rw [entryGet_setKey_other _ _ _ _ (by decide)]
              exact entryGet_setKey_same extracted "url_source" (Value.str url)
          | some sstr =>
            rcases hv : validate_entry (setKey (setKey (setKey extracted "url_source"
                (Value.str url)) "data_source" (Value.str sstr))
                "source_file" (Value.str pth)) with err | validated
            · simp only [hv] at h; simp at h
            · simp only [hv] at h
              cases h
              apply validate_entry_url _ _ url ?_ hv
              rw [entryGet_setKey_other _ _ _ _ (by decide),
                  entryGet_setKey_other _ _ _ _ (by decide)]
              exact entryGet_setKey_same extracted "url_source" (Value.str url)

theorem urlsOf_append (a b : List Entry) : urlsOf (a ++ b) = urlsOf a ++ urlsOf b := by
  simp [urlsOf]

theorem mem_urlsOf_of_mem (r : Entry) (rows : List Entry) (h : r ∈ rows) :
    entryGet r "url_source" ∈ urlsOf rows :=
  List.mem_map_of_mem _ h

theorem runLoop_urlset_inv (src : Option String) (md : Option Metadata) (U : List Value) :
    ∀ (files : List InputFile) (st : LoopState),
      (∀ v, v ∈ urlsOf st.entries ↔ v ∈ U) →
      (∀ f ∈ files,
        (resolveUrl md f.name ≠ "unknown" ∧ Value.str (resolveUrl md f.name) ∈ U)
        ∨ (∀ r, attempt src f (resolveUrl md f.name) = some r →
            Value.str (strFieldClean (resolveUrl md f.name)) ∈ U)) →
      ∀ v, v ∈ urlsOf (runLoop src md U st files).entries ↔ v ∈ U := by
  intro files
  induction files with
  | nil => intro st hst _ v; simpa [runLoop] using hst v
  | cons f rest ih =>
    intro st hst hf v
    rw [runLoop_cons]
    apply ih _ ?_ (fun g hg => hf g (List.mem_cons_of_mem f hg))
    intro w
    by_cases hskip : resolveUrl md f.name ≠ "unknown" ∧ Value.str (resolveUrl md f.name) ∈ U
    · rw [processFile_skip src md U st f hskip.1 hskip.2]
      exact hst w
    · have hent := processFile_entries src md U st f
      rw [if_neg hskip] at hent
      rcases hat : attempt src f (resolveUrl md f.name) with _ | r
      · rw [hat] at hent
        rw [hent]
        exact hst w
      · rw [hat] at hent
        rw [hent, urlsOf_append]
        have hinU : Value.str (strFieldClean (resolveUrl md f.name)) ∈ U := by
          rcases hf f (List.mem_cons_self f rest) with hl | hr2
          · exact absurd hl hskip
          · exact hr2 r hat
        constructor
        · intro hmem
          rcases List.mem_append.mp hmem with h1 | h2
          · exact (hst w).mp h1
          · have h2' : w = entryGet r "url_source" := by simpa [urlsOf] using h2
            rw [h2', attempt_url src f _ r hat]
            exact hinU
        · intro hmem
          exact List.mem_append_left _ ((hst w).mpr hmem)

/-- C2 (amended): a `url_source` (other than `"unknown"`) that is already in
the dataset *loaded at the start of a run* is never re-processed —
encountering it leaves the loop state untouched (first conjunct). However,
the skip set is not updated during the loop, so two files of one run
resolving to the same URL produce two rows with that `url_source` (see the
counterexample); what survives of the idempotence claim is that re-running
the loop over the same files, starting from the accumulated records, leaves
the *set* of `url_source` values unchanged (second conjunct). -/
theorem url_dedup_skip_and_second_run_urlset :
    (∀ (src : Option String) (md : Option Metadata) (urls : List Value)
        (st : LoopState) (f : InputFile),
      resolveUrl md f.name ≠ "unknown" → Value.str (resolveUrl md f.name) ∈ urls →
      processFile src md urls st f = st)
    ∧
    (∀ (src : Option String) (md : Option Metadata) (rows0 : List Entry) (file0 : FileRead)
        (files : List InputFile),
      ∀ v, v ∈ urlsOf (runLoop src md
          (urlsOf (runLoop src md (urlsOf rows0) ⟨rows0, file0, 0⟩ files).entries)
          ⟨(runLoop src md (urlsOf rows0) ⟨rows0, file0, 0⟩ files).entries,
            FileRead.content (runLoop src md (urlsOf rows0) ⟨rows0, file0, 0⟩ files).entries, 0⟩
          files).entries ↔
        v ∈ urlsOf (runLoop src md (urlsOf rows0) ⟨rows0, file0, 0⟩ files).entries) := by
  constructor
  · exact fun src md urls st f h1 h2 => processFile_skip src md urls st f h1 h2
  · intro src md rows0 file0 files v
    refine runLoop_urlset_inv src md
      (urlsOf (runLoop src md (urlsOf rows0) ⟨rows0, file0, 0⟩ files).entries) files
      ⟨(runLoop src md (urlsOf rows0) ⟨rows0, file0, 0⟩ files).entries,
        FileRead.content (runLoop src md (urlsOf rows0) ⟨rows0, file0, 0⟩ files).entries, 0⟩
      (fun w => Iff.rfl) ?_ v
    intro f hf
    rcases runLoop_coverage src md (urlsOf rows0) files ⟨rows0, file0, 0⟩ f hf with ⟨hne, hmem⟩ | hcov
    · left
      refine ⟨hne, ?_⟩
      obtain ⟨t, ht⟩ := runLoop_entries_prefix src md (urlsOf rows0) files ⟨rows0, file0, 0⟩
      rw [ht, urlsOf_append]
      exact List.mem_append_left _ hmem
    · right
      intro r hat
      have hrmem := hcov r hat
      have hmem2 := mem_urlsOf_of_mem r _ hrmem
      rw [attempt_url src f _ r hat] at hmem2
      exact hmem2

/-- Witness for C2 (amended), first conjunct: a run state already containing
`url_source = "https://example.org/a"` skips the file `a.html`, which
resolves to that same URL, leaving the state unchanged. -/
theorem url_dedup_skip_witness :
    processFile (some "oppla") (some mdDup) (urlsOf [existingRow])
      { entries := [existingRow], fileContent := FileRead.content [existingRow], llm_calls := 0 }
      fileA =
    { entries := [existingRow], fileContent := FileRead.content [existingRow], llm_calls := 0 } :=
  url_dedup_skip_and_second_run_urlset.1 (some "oppla") (some mdDup) (urlsOf [existingRow])
    { entries := [existingRow], fileContent := FileRead.content [existingRow], llm_calls := 0 }
    fileA (by decide) (by decide)

set_option maxRecDepth 100000 in
/-- C2 counterexample: on a fresh output path, a single run over two files
that both resolve to `"https://example.org/a"` produces two rows with that
same `url_source` — the claimed cross-dataset uniqueness fails because the
skip set is computed once at the start of the run and never updated. -/
theorem process_directory_duplicate_url_same_run :
    (process_directory runDup).toOption.map (fun o => urlsOf o.final.entries) =
      some [Value.str "https://example.org/a", Value.str "https://example.org/a"] := by
  decide

/-- C5 (confirmed): a file whose resolved URL is not `"unknown"` and is
already among the `url_source` values of the rows loaded at the start of
the run is skipped before any content extraction: the whole run behaves
exactly as if the file were not listed, so in particular the LLM client is
not called for it (`llm_calls` is part of the state) and the record count
is unchanged by it. -/
theorem skip_known_url_no_llm_call (src : Option String) (md : Option Metadata)
    (rows : List Entry) (st : LoopState) (pre post : List InputFile) (f : InputFile)
    (h1 : resolveUrl md f.name ≠ "unknown")
    (h2 : Value.str (resolveUrl md f.name) ∈ urlsOf rows) :
    runLoop src md (urlsOf rows) st (pre ++ f :: post) =
      runLoop src md (urlsOf rows) st (pre ++ post) := by
  rw [runLoop_append, runLoop_append, runLoop_cons,
      processFile_skip src md (urlsOf rows) _ f h1 h2]

/-- Witness for C5: with `existingRow` (url `https://example.org/a`) already
loaded and `a.html` resolving to the same URL, the one-file run equals the
empty run. -/
theorem skip_known_url_no_llm_call_witness :
    runLoop (some "oppla") (some mdDup) (urlsOf [existingRow])
      { entries := [existingRow], fileContent := FileRead.content [existingRow], llm_calls := 0 }
      ([] ++ fileA :: []) =
    runLoop (some "oppla") (some mdDup) (urlsOf [existingRow])
      { entries := [existingRow], fileContent := FileRead.content [existingRow], llm_calls := 0 }
      ([] ++ []) :=
  skip_known_url_no_llm_call (some "oppla") (some mdDup) [existingRow]
    { entries := [existingRow], fileContent := FileRead.content [existingRow], llm_calls := 0 }
    [] [] fileA (by decide) (by decide)

/-! ## C3, C4: persisted rows and run statistics -/

/-- The rows of the output file after a run, when the run returned and the
file holds parseable content. -/
def savedRowsOf : Except String RunOutcome → Option (List Entry)
  | Except.ok o =>
    match o.final.fileContent with
    | FileRead.content rows => some rows
    | _ => Option.none
  | Except.error _ => Option.none

/-- `(total_files, processed_files)` of the persisted statistics, if any. -/
def statsTotalsOf : Except String RunOutcome → Option (Nat × Nat)
  | Except.ok o => o.stats.map (fun s => (s.total_files, s.processed_files))
  | Except.error _ => Option.none

/-- A fresh-output run over the single successful file `a.html` with
`source_type='oppla'`. -/
def runSingle : RunInput :=
  { outFile := FileRead.absent, listing := Except.ok [fileA],
    metadata := some mdDup, source_type := some "oppla", now := "2026-01-01 00:00:00" }

set_option maxRecDepth 100000 in
/-- C3 (code bug): in a run with a source type given, the record persisted to
the output dataset carries exactly the 13 canonical schema keys and none of
the provenance fields. `process_directory` does assign `data_source` and
`source_file` on the extracted dict, but `validate_entry` rebuilds the
record from `self.schema` only, dropping them, and the checkpoint
`save_data` writes those validated rows; `processed_date`/`data_source` are
re-attached only to the returned frame, after the last save. This
contradicts `save_data`'s own data dictionary, which documents
`data_source`, `source_file` and `processed_date` as output columns. -/
theorem persisted_rows_lack_provenance_fields :
    (savedRowsOf (process_directory runSingle)).map
        (fun rows => rows.map (fun r => r.map Prod.fst)) = some [canonicalKeys]
    ∧ "data_source" ∉ canonicalKeys
    ∧ "source_file" ∉ canonicalKeys
    ∧ "processed_date" ∉ canonicalKeys := by
  exact ⟨by decide, by decide, by decide, by decide⟩

/-- A run over one metadata-less file against an output file already holding
one row. -/
def runC4 : RunInput :=
  { outFile := FileRead.content [existingRow], listing := Except.ok [fileA],
    metadata := Option.none, source_type := some "oppla", now := "2026-01-01 00:00:00" }

set_option maxRecDepth 100000 in
/-- C4 counterexample: a run over 1 input file that produces 1 new record,
against a dataset already holding 1 row, reports `processed_files = 2`:
`len(entries)` counts the pre-existing rows, not the files that produced a
record during the run (which number 1 here, the second conjunct). -/
theorem stats_processed_files_counts_existing_rows :
    statsTotalsOf (process_directory runC4) = some (1, 2) ∧
    (process_directory runC4).toOption.map
      (fun o => o.final.entries.length - [existingRow].length) = some 1 := by
  exact ⟨by decide, by decide⟩

theorem finishRun_stats (files : List InputFile) (src : Option String) (now : String)
    (st : LoopState) (out : RunOutcome) (s : Stats)
    (ho : finishRun files src now st = Except.ok out) (hs : out.stats = some s) :
    s.total_files = files.length ∧ s.processed_files = st.entries.length ∧ out.final = st := by
  unfold finishRun at ho
  by_cases hemp : st.entries = []
  · rw [if_pos hemp] at ho
    obtain rfl := Except.ok.inj ho
    simp at hs
  · rw [if_neg hemp] at ho
    simp only [bind, Except.bind] at ho
    rcases henf : ensureFields st.entries with e | rows
    · rw [henf] at ho
      simp at ho
    · rw [henf] at ho
      dsimp only at ho
      by_cases hz : files.length = 0
      · rw [if_pos hz] at ho
        simp at ho
      · rw [if_neg hz] at ho
        obtain rfl := Except.ok.inj ho
        simp only [Option.some.injEq] at hs
        subst hs
        exact ⟨rfl, rfl, rfl⟩

theorem process_directory_stats (inp : RunInput) (files : List InputFile)
    (out : RunOutcome) (s : Stats)
    (hl : inp.listing = Except.ok files)
    (ho : process_directory inp = Except.ok out)
    (hs : out.stats = some s) :
    s.total_files = files.length ∧ s.processed_files = out.final.entries.length := by
  unfold process_directory at ho
  rw [hl] at ho
  simp only [bind, Except.bind] at ho
  rcases hu : loadUrls (load_existing_data inp.outFile) with e | urls
  · rw [hu] at ho
    simp at ho
  · rw [hu] at ho
    dsimp only at ho
    obtain ⟨h1, h2, h3⟩ := finishRun_stats _ _ _ _ out s ho hs
    refine ⟨h1, ?_⟩
    rw [h3]
    exact h2

/-- Metadata resolving the three crash-scenario files to distinct URLs. -/
def mdCrash : Metadata :=
  { successful_files := some
      [ { filename := some "f1.html", link := some "https://example.org/f1" },
        { filename := some "f2.html", link := some "https://example.org/f2" },
        { filename := some "f3.html", link := some "https://example.org/f3" } ] }

/-- First crash-scenario file: processed successfully. -/
def fileF1 : InputFile :=
  { name := "f1.html", path := "raw/f1.html", parsed := Except.ok longText,
    llm := some llmEntry, save_ok := true }

/-- Second crash-scenario file: the LLM client fails on it. -/
def fileF2 : InputFile :=
  { name := "f2.html", path := "raw/f2.html", parsed := Except.ok longText,
    llm := Option.none, save_ok := true }

/-- Third crash-scenario file: processed successfully. -/
def fileF3 : InputFile :=
  { name := "f3.html", path := "raw/f3.html", parsed := Except.ok longText,
    llm := some llmEntry, save_ok := true }

/-- The crash scenario of the spec: 3 files, empty starting dataset, LLM
failure on the 2nd. -/
def runCrash : RunInput :=
  { outFile := FileRead.absent, listing := Except.ok [fileF1, fileF2, fileF3],
    metadata := some mdCrash, source_type := some "oppla", now := "2026-01-01 00:00:00" }

set_option maxRecDepth 1000000 in
/-- C4 (amended): the persisted statistics report `total_files` equal to the
number of listed HTML files and `processed_files` equal to the number of
records in the accumulated dataset at the end of the run — pre-existing
rows included, which is the amendment forced by
`stats_processed_files_counts_existing_rows`. In the crash scenario (3
files, empty starting dataset, LLM failure on the 2nd) the persisted
dataset holds exactly the records of files 1 and 3 in order of arrival and
the statistics report `processed_files = 2`, `total_files = 3`, as claimed. -/
theorem stats_totals_and_crash_safety :
    (∀ (inp : RunInput) (files : List InputFile) (out : RunOutcome) (s : Stats),
      inp.listing = Except.ok files → process_directory inp = Except.ok out →
      out.stats = some s →
      s.total_files = files.length ∧ s.processed_files = out.final.entries.length)
    ∧ (savedRowsOf (process_directory runCrash)).map urlsOf =
        some [Value.str "https://example.org/f1", Value.str "https://example.org/f3"]
    ∧ statsTotalsOf (process_directory runCrash) = some (3, 2) := by
  refine ⟨?_, by decide, by decide⟩
  intro inp files out s hl ho hs
  exact process_directory_stats inp files out s hl ho hs

set_option maxRecDepth 1000000 in
/-- Witness for C4 (amended): applying the general statistics conjunct to the
concrete crash-scenario run. -/
theorem stats_totals_witness :
    ∃ out s, process_directory runCrash = Except.ok out ∧ out.stats = some s ∧
      s.total_files = [fileF1, fileF2, fileF3].length ∧
      s.processed_files = out.final.entries.length := by
  rcases hrun : process_directory runCrash with e | out
  · have h1 : (process_directory runCrash).toOption = Option.none := by
      rw [hrun]; rfl
    have h2 : (process_directory runCrash).toOption ≠ Option.none := by decide
    exact absurd h1 h2
  · rcases hst : out.stats with _ | s
    · have h1 : statsTotalsOf (process_directory runCrash) = Option.none := by
        rw [hrun]
        simp [statsTotalsOf, hst]
      have h2 : statsTotalsOf (process_directory runCrash) = some (3, 2) := by decide
      rw [h1] at h2
      exact absurd h2 (by simp)
    · exact ⟨out, s, rfl, hst,
        stats_totals_and_crash_safety.1 runCrash [fileF1, fileF2, fileF3] out s rfl hrun hst⟩

/-! ## C6: set-field cleaning -/

/-- Keep the first occurrence of each string, dropping later duplicates. -/
def dedupFirst : List String → List String
  | [] => []
  | x :: xs => x :: dedupFirst (xs.filter (fun y => y ≠ x))
termination_by l => l.length
decreasing_by exact Nat.lt_succ_of_le (List.length_filter_le _ xs)

theorem contains_true_iff (l : List String) (y : String) : l.contains y = true ↔ y ∈ l := by
  simp

/-- The set-field cleaning as the (amended) spec words it: drop elements that
are falsy or whose stringified, stripped form is empty; stringify, strip
and lower-case the rest; keep first occurrences only. -/
def cleanListSpec (items : List Value) : List String :=
  dedupFirst ((items.filter (fun it => it.truthy ∧ pyStrip (pyStr it) ≠ "")).map
    (fun it => pyLower (pyStrip (pyStr it))))

theorem filter_not_contains_append (x : String) (acc l : List String) :
    l.filter (fun y => !((acc ++ [x]).contains y)) =
      (l.filter (fun y => !(acc.contains y))).filter (fun y => y ≠ x) := by
  rw [List.filter_filter]
  apply List.filter_congr
  intro y _
  by_cases h1 : y = x
  · simp [h1]
  · by_cases h2 : y ∈ acc
    · simp [h1, h2]
    · simp [h1, h2]

theorem foldl_cleanStep (items : List Value) :
    ∀ acc : List String,
      items.foldl cleanStep acc =
        acc ++ dedupFirst (((items.filter (fun it => it.truthy ∧ pyStrip (pyStr it) ≠ "")).map
          (fun it => pyLower (pyStrip (pyStr it)))).filter (fun y => !(acc.contains y))) := by
  induction items with
  | nil => intro acc; simp [dedupFirst]
  | cons it rest ih =>
    intro acc
    rw [List.foldl_cons]
    by_cases hP : it.truthy = true ∧ pyStrip (pyStr it) ≠ ""
    · by_cases hc : acc.contains (pyLower (pyStrip (pyStr it))) = true
      · have hmem : pyLower (pyStrip (pyStr it)) ∈ acc := (contains_true_iff _ _).mp hc
        rw [show cleanStep acc it = acc from by simp [cleanStep, hP, hmem]]
        rw [ih acc]
        simp [hP, hmem]
      · have hnmem : pyLower (pyStrip (pyStr it)) ∉ acc :=
          fun hm => hc ((contains_true_iff _ _).mpr hm)
        rw [show cleanStep acc it = acc ++ [pyLower (pyStrip (pyStr it))] from by
          simp [cleanStep, hP, hnmem]]
        rw [ih (acc ++ [pyLower (pyStrip (pyStr it))])]
        rw [filter_not_contains_append]
        simp [hP, hnmem, dedupFirst]
    · rw [show cleanStep acc it = acc from by simp [cleanStep, hP]]
      rw [ih acc]
      simp [hP]

theorem cleanList_eq_spec (items : List Value) : cleanList items = cleanListSpec items := by
  unfold cleanList cleanListSpec
  rw [foldl_cleanStep items []]
  simp

set_option maxRecDepth 100000 in
/-- C6 counterexample: the integer element `0` is falsy in Python, so the
`if item and str(item).strip():` guard drops it before stringification; the
claim's algorithm (stringify, trim, lower-case, drop if empty) would keep
it as `"0"`. -/
theorem set_field_drops_falsy_zero :
    (validate_entry [("solution_types", Value.list [Value.int 0])]).toOption.map
        (fun out => entryGet out "solution_types") = some (Value.list []) ∧
      Value.list [] ≠ Value.list [Value.str "0"] :=
  ⟨by decide, by decide⟩

set_option maxRecDepth 100000 in
/-- C6 (amended): for every set-typed schema field, a value that is not a
Python list validates to the empty list; a list is cleaned by dropping
elements that are falsy (`None`, `False`, `0`, empty strings and empty
containers — the amendment) or whose stringified, stripped form is empty,
stringifying, stripping and lower-casing the survivors, and de-duplicating
case-insensitively, keeping first occurrences (`cleanListSpec` states this
in the spec's order); in particular
`["Flooding", "flooding", " flooding ", ""]` validates to `["flooding"]`. -/
theorem set_field_clean_characterization :
    (∀ (f : String) (v : Value), (f, true) ∈ schemaFields →
      validateField f true v =
        Except.ok (Value.list ((match v with
          | Value.list l => cleanList l
          | _ => []).map Value.str)))
    ∧ (∀ items, cleanList items = cleanListSpec items)
    ∧ (validate_entry [("solution_types",
        Value.list [Value.str "Flooding", Value.str "flooding",
          Value.str " flooding ", Value.str ""])]).toOption.map
        (fun out => entryGet out "solution_types") =
      some (Value.list [Value.str "flooding"]) := by
  refine ⟨?_, cleanList_eq_spec, by decide⟩
  intro f v hmem
  simp only [schemaFields, List.mem_cons, Prod.mk.injEq, List.not_mem_nil, or_false,
    Bool.true_eq_false, and_false, false_or, and_true] at hmem
  rcases hmem with rfl | rfl | rfl | rfl <;>
    rcases v with _ | b | n | sx | l <;> rfl

set_option maxRecDepth 100000 in
/-- Witness for C6 (amended): the first conjunct applied to the `impacts`
field on a mixed list. -/
theorem set_field_clean_witness :
    validateField "impacts" true (Value.list [Value.int 7, Value.str "Better Air"]) =
      Except.ok (Value.list
        ((cleanList [Value.int 7, Value.str "Better Air"]).map Value.str)) :=
  set_field_clean_characterization.1 "impacts"
    (Value.list [Value.int 7, Value.str "Better Air"]) (by decide)

/-! ## C7: summary truncation -/

/-- C7 (confirmed): for a present, non-null `summary` value the validator
stores `str(value).strip()`, and whenever that stripped string splits into
more than 4 period-delimited segments, only the first 4 are kept, each
stripped, rejoined with `". "` plus a trailing period. -/
theorem summary_truncation (entry : Entry) (out : Entry) (v : Value)
    (hne : v ≠ Value.none)
    (hsum : entryGet entry "summary" = v)
    (hok : validate_entry entry = Except.ok out) :
    entryGet out "summary" = Value.str
      (if 4 < (pySplit '.' (pyStrip (pyStr v))).length then
        joinSep ". " (((pySplit '.' (pyStrip (pyStr v))).take 4).map pyStrip) ++ "."
      else pyStrip (pyStr v)) := by
  obtain ⟨w, hw, hget⟩ :=
    validateFields_get entry schemaFields out hok (by decide) "summary" false (by decide)
  rw [hsum] at hw
  have hcomp : validateField "summary" false v =
      Except.ok (Value.str (summaryClean (pyStr v))) := by
    cases v with
    | none => exact absurd rfl hne
    | bool b => rfl
    | int n => rfl
    | str s => rfl
    | list l => rfl
  rw [hcomp] at hw
  rw [hget, ← Except.ok.inj hw]
  simp [summaryClean]

set_option maxRecDepth 100000 in
/-- Witness for C7: a 6-sentence summary validates to exactly its first 4
sentences joined by `". "` with a trailing period. -/
theorem summary_truncation_witness :
    ∃ out, validate_entry [("summary", Value.str "S1. S2. S3. S4. S5. S6.")] = Except.ok out ∧
      entryGet out "summary" = Value.str "S1. S2. S3. S4." := by
  rcases hok : validate_entry [("summary", Value.str "S1. S2. S3. S4. S5. S6.")] with e | out
  · have h1 : (validate_entry [("summary", Value.str "S1. S2. S3. S4. S5. S6.")]).toOption =
        Option.none := by rw [hok]; rfl
    have h2 : (validate_entry [("summary", Value.str "S1. S2. S3. S4. S5. S6.")]).toOption ≠
        Option.none := by decide
    exact absurd h1 h2
  · refine ⟨out, rfl, ?_⟩
    have hth := summary_truncation [("summary", Value.str "S1. S2. S3. S4. S5. S6.")] out
      (Value.str "S1. S2. S3. S4. S5. S6.") (by decide) (by decide) hok
    rw [hth]
    decide

/-! ## C8: error containment and propagation -/

/-- An empty input directory paired with a non-empty existing dataset. -/
def runEmptyDir : RunInput :=
  { outFile := FileRead.content [existingRow], listing := Except.ok [],
    metadata := Option.none, source_type := Option.none, now := "2026-01-01 00:00:00" }

set_option maxRecDepth 100000 in
/-- C8 counterexample: with a non-empty existing dataset and a directory
listing zero HTML files, the success-rate computation
`len(entries) / len(html_files)` divides by zero and the exception
propagates to the caller even though the directory listing itself
succeeded — refuting "only failure to list the input directory propagates". -/
theorem process_directory_zero_division_propagates :
    process_directory runEmptyDir = Except.error "ZeroDivisionError" ∧
      runEmptyDir.listing = Except.ok [] :=
  ⟨by decide, rfl⟩

/-- A file on which validation raises (`status` is an integer). -/
def fileBadStatus : InputFile :=
  { name := "c.html", path := "raw/c.html", parsed := Except.ok longText,
    llm := some [("status", Value.int 5)], save_ok := true }

/-- C8 (amended): no exception raised while processing a single file escapes
the loop — the loop's step simply continues from the body's state (first
conjunct), and a file whose body raised an exception leaves the output
file exactly as it was, so already-written records are unaffected (second
conjunct). A directory-listing failure propagates to the caller (third
conjunct) — but, amending the claim, it is not the only propagating error:
the post-loop statistics computation can raise too
(`process_directory_zero_division_propagates`). -/
theorem per_file_errors_contained :
    (∀ (src : Option String) (md : Option Metadata) (urls : List Value)
        (st : LoopState) (f : InputFile) (rest : List InputFile),
      runLoop src md urls st (f :: rest) =
        runLoop src md urls (processFile src md urls st f) rest)
    ∧ (∀ (src : Option String) (md : Option Metadata) (urls : List Value)
        (st : LoopState) (f : InputFile),
      (processFileBody src md urls st f).2.isSome = true →
      (processFile src md urls st f).fileContent = st.fileContent)
    ∧ (∀ (inp : RunInput) (e : String), inp.listing = Except.error e →
        process_directory inp = Except.error e) := by
  refine ⟨fun _ _ _ _ _ _ => rfl, processFileBody_error_fileContent, ?_⟩
  intro inp e hl
  unfold process_directory
  rw [hl]
  rfl

set_option maxRecDepth 100000 in
/-- Witness for C8 (amended): the file whose LLM reply carries an integer
`status` makes `validate_entry` raise inside the loop body; the output file
is untouched. -/
theorem per_file_errors_contained_witness :
    (processFile Option.none Option.none []
        { entries := [], fileContent := FileRead.absent, llm_calls := 0 } fileBadStatus).fileContent =
      FileRead.absent :=
  per_file_errors_contained.2.1 Option.none Option.none []
    { entries := [], fileContent := FileRead.absent, llm_calls := 0 } fileBadStatus (by decide)

/-! ## C9: the dataset writer's format check -/

/-- C9 (confirmed): `save_data` raises exactly when the requested format is
outside the fixed set `{csv, json, excel}` (first conjunct); and when it
raises, neither the dataset file nor the field-description document has
been written — only the directory creation precedes the check (second
conjunct). -/
theorem save_data_format_error_iff :
    (∀ (df : List Entry) (output_path format : String),
      (save_data df output_path format).2.isSome ↔
        format ∉ (["csv", "json", "excel"] : List String))
    ∧ (∀ (df : List Entry) (output_path format : String),
        (save_data df output_path format).2.isSome →
        ∀ ev ∈ (save_data df output_path format).1,
          (∀ p fm rows, ev ≠ WriteEvent.dataset p fm rows) ∧ (∀ p, ev ≠ WriteEvent.dictionary p)) := by
  constructor
  · intro df op format
    unfold save_data
    by_cases hf : format = "csv" ∨ format = "json" ∨ format = "excel"
    · rw [if_pos hf]
      simp only [Option.isSome_none, Bool.false_eq_true, false_iff, not_not]
      simpa using hf
    · rw [if_neg hf]
      simp only [Option.isSome_some, true_iff]
      simpa using hf
  · intro df op format h ev hev
    unfold save_data at h hev
    by_cases hf : format = "csv" ∨ format = "json" ∨ format = "excel"
    · rw [if_pos hf] at h
      simp at h
    · rw [if_neg hf] at hev
      by_cases hd : dirName op ≠ ""
      · rw [if_pos hd] at hev
        have hmk : ev = WriteEvent.makedirs (dirName op) := by simpa using hev
        subst hmk
        exact ⟨fun p fm rows hc => WriteEvent.noConfusion hc,
               fun p hc => WriteEvent.noConfusion hc⟩
      · rw [if_neg hd] at hev
        simp at hev

/-- Witness for C9: the unsupported format `"xml"` with a directory-bearing
output path: the error is flagged and only the directory creation happened. -/
theorem save_data_format_error_iff_witness :
    ((save_data [] "data/out.csv" "xml").2.isSome ↔
      "xml" ∉ (["csv", "json", "excel"] : List String)) ∧
    (∀ ev ∈ (save_data [] "data/out.csv" "xml").1,
      (∀ p fm rows, ev ≠ WriteEvent.dataset p fm rows) ∧ (∀ p, ev ≠ WriteEvent.dictionary p)) :=
  ⟨save_data_format_error_iff.1 [] "data/out.csv" "xml",
   save_data_format_error_iff.2 [] "data/out.csv" "xml" (by decide)⟩

/-! ## C10: loading an unreadable dataset -/

/-- A run over a corrupt existing output file: the first file fails (LLM
returns nothing), the second succeeds. -/
def runCorrupt : RunInput :=
  { outFile := FileRead.corrupt, listing := Except.ok [fileLlmFail, fileA],
    metadata := some mdDup, source_type := some "oppla", now := "2026-01-01 00:00:00" }

set_option maxRecDepth 100000 in
/-- C10 (confirmed): `load_existing_data` is total — an absent file and an
unreadable/unparseable file both load as the empty dataset (first
conjunct); a corrupt output file therefore yields an empty skip set with no
`KeyError` (second conjunct); starting from no entries and a corrupt file,
every loop step either changes nothing durable or appends its single new
record and replaces the file with exactly that one-record dataset (third
conjunct); and in the concrete corrupt-start run whose first file fails and
whose second succeeds, the output file ends up holding exactly the one new
record (fourth conjunct). -/
theorem load_existing_data_total_and_fresh_start :
    (∀ f : FileRead, load_existing_data f =
        (match f with | FileRead.content rows => rows | _ => []))
    ∧ loadUrls (load_existing_data FileRead.corrupt) = Except.ok []
    ∧ (∀ (src : Option String) (md : Option Metadata) (st : LoopState) (f : InputFile),
        st.entries = [] → st.fileContent = FileRead.corrupt → f.save_ok = true →
        ((processFile src md [] st f).entries = [] ∧
          (processFile src md [] st f).fileContent = FileRead.corrupt)
        ∨ (∃ r, (processFile src md [] st f).entries = [r] ∧
            (processFile src md [] st f).fileContent = FileRead.content [r]))
    ∧ (savedRowsOf (process_directory runCorrupt)).map List.length = some 1 := by
  refine ⟨?_, rfl, ?_, by decide⟩
  · intro f
    cases f <;> rfl
  · intro src md st f he hfc hs
    obtain ⟨nm, pth, parsed, llm, sv⟩ := f
    simp only [InputFile.save_ok] at hs
    subst hs
    have hnoskip : ¬(resolveUrl md nm ≠ "unknown" ∧
        Value.str (resolveUrl md nm) ∈ ([] : List Value)) := by
      rintro ⟨-, hmem⟩
      simp at hmem
    simp only [processFile, processFileBody, if_neg hnoskip]
    cases parsed with
    | error e => exact Or.inl ⟨he, hfc⟩
    | ok text =>
      dsimp only
      by_cases hshort : text = "" ∨ (pyStrip text).length < 100
      · rw [if_pos hshort]
        exact Or.inl ⟨he, hfc⟩
      · rw [if_neg hshort]
        cases llm with
        | none => exact Or.inl ⟨he, hfc⟩
        | some extracted =>
          dsimp only
          by_cases hemp : extracted = []
          · rw [if_pos hemp]
            exact Or.inl ⟨he, hfc⟩
          · rw [if_neg hemp]
            cases src with
            | none =>
              rcases hv : validate_entry (setKey (setKey extracted "url_source"
                  (Value.str (resolveUrl md nm))) "source_file" (Value.str pth)) with err | validated
              · exact Or.inl ⟨he, hfc⟩
              · refine Or.inr ⟨validated, ?_, ?_⟩ <;> simp [he]
            | some sstr =>
              rcases hv : validate_entry (setKey (setKey (setKey extracted "url_source"
                  (Value.str (resolveUrl md nm))) "data_source" (Value.str sstr))
                  "source_file" (Value.str pth)) with err | validated
              · exact Or.inl ⟨he, hfc⟩
              · refine Or.inr ⟨validated, ?_, ?_⟩ <;> simp [he]

set_option maxRecDepth 100000 in
/-- Witness for C10, third conjunct: from the empty/corrupt state, the
successful file `a.html` leaves one record and a one-record output file. -/
theorem load_existing_data_total_witness :
    ((processFile (some "oppla") (some mdDup) []
        { entries := [], fileContent := FileRead.corrupt, llm_calls := 0 } fileA).entries = [] ∧
      (processFile (some "oppla") (some mdDup) []
        { entries := [], fileContent := FileRead.corrupt, llm_calls := 0 } fileA).fileContent =
        FileRead.corrupt)
    ∨ (∃ r, (processFile (some "oppla") (some mdDup) []
        { entries := [], fileContent := FileRead.corrupt, llm_calls := 0 } fileA).entries = [r] ∧
      (processFile (some "oppla") (some mdDup) []
        { entries := [], fileContent := FileRead.corrupt, llm_calls := 0 } fileA).fileContent =
        FileRead.content [r]) :=
  load_existing_data_total_and_fresh_start.2.2.1 (some "oppla") (some mdDup)
    { entries := [], fileContent := FileRead.corrupt, llm_calls := 0 } fileA rfl rfl rfl
